import Mathlib

/-!
Verification development for the gdrr-2bp guillotine 2D cutting-stock solver.

The definitions below are a shallow embedding of the repository's Rust
sources.  Machine integers (`usize`, `u64`) are modelled as `Nat`; the only
place where the machine width matters is `usize::MAX`, modelled explicitly.
Fallible code (Rust panics, `todo!()` macros, `debug_assert!` failures,
`unwrap()` on empty options) is modelled with `Except String` / `Option`:
an error value means the Rust program would panic at that point and no
post-state exists.

Parts of the repository referenced by the sources at hand (the layout tree
`Node`/`Layout`, `Instance`, `PartType`, the JSON records, the channel
message enums, `Cost`) are not among the given source files; following the
specification they are modelled from its text, and each such definition
carries a doc comment starting with `Modelled from the spec:`.
-/

namespace Gdrr

/- ====================================================================
   src/core/entities/sheettype.rs
   ==================================================================== -/

/-- `SheetType` from src/core/entities/sheettype.rs: fields `id : usize`,
`width height value : u64`. -/
structure SheetType where
  id : Nat
  width : Nat
  height : Nat
  value : Nat
deriving DecidableEq

/-- `SheetType::new(width, height, value)` — note it sets `id` to `0`. -/
def SheetType.new (width height value : Nat) : SheetType :=
  { id := 0, width := width, height := height, value := value }

/-- `SheetType::set_id`. -/
def SheetType.set_id (s : SheetType) (id : Nat) : SheetType :=
  { s with id := id }

/-- The `Hash` impl for `SheetType` feeds only `self.id` into the hasher
state.  A Rust `Hasher` is modelled abstractly as a state type `σ` with a
function consuming one `usize`; `hashInto` is the stream of writes the
`hash` method performs on the state. -/
def SheetType.hashInto {σ : Type} (hashNat : σ → Nat → σ) (state : σ)
    (s : SheetType) : σ :=
  hashNat state s.id

/- ====================================================================
   Records shared by the parser (src/io/parser.rs)
   ==================================================================== -/

/-- Modelled from the spec: allowed rotations are 0°/90°; the parser uses
`Rotation::Default` when rotation is disallowed (src/io/parser.rs line 25). -/
inductive Rotation where
  | Default
  | Rotated
deriving DecidableEq

/-- Modelled from the spec: `PartType` `(id, width, height,
allowed_rotations)` (§3); the entity file is not among the given sources.
The parser constructs it as `PartType::new(id, length, height,
fixed_rotation)` where `fixed_rotation = None` iff rotation is allowed. -/
structure PartType where
  id : Nat
  width : Nat
  height : Nat
  fixed_rotation : Option Rotation
deriving DecidableEq

/-- Modelled from the spec: `PartType::new` as called by the parser. -/
def PartType.new (id width height : Nat) (fixed_rotation : Option Rotation) :
    PartType :=
  { id := id, width := width, height := height, fixed_rotation := fixed_rotation }

/-- Modelled from the spec: the five-argument `SheetType::new(id, length,
height, cost, None)` used at src/io/parser.rs lines 36-42 is not among the
given sources (src/core/entities/sheettype.rs has a three-argument version).
Per §3 a SheetType is `(id, width, height, unit_cost)`; the fifth argument
(`None` at the call site) is not part of the constructed record and is not
modelled. -/
def SheetType.new_with_id (id width height value : Nat) : SheetType :=
  { id := id, width := width, height := height, value := value }

/-- Modelled from the spec: `Instance::new(parts, sheets)` keeps the ordered
part list with demands and the ordered sheet list with stocks (§3). -/
structure Instance where
  parts : List (PartType × Nat)
  sheets : List (SheetType × Nat)
deriving DecidableEq

/-- Modelled from the spec: `instance.get_parttype_qty(id)` — the demand of
part type `id`. -/
def Instance.get_parttype_qty (inst : Instance) (id : Nat) : Option Nat :=
  (inst.parts[id]?).map (fun pq => pq.2)

/-- Modelled from the spec (§6): JSON part type record with optional
`reference` written back by the loader. -/
structure JsonPartType where
  length : Nat
  height : Nat
  demand : Nat
  reference : Option Nat
deriving DecidableEq

/-- Modelled from the spec (§6): JSON sheet type record; `stock` absent
means unlimited. -/
structure JsonSheetType where
  length : Nat
  height : Nat
  cost : Nat
  stock : Option Nat
  reference : Option Nat
deriving DecidableEq

/-- Modelled from the spec (§6): the instance JSON document. -/
structure JsonInstance where
  parttypes : List JsonPartType
  sheettypes : List JsonSheetType
deriving DecidableEq

/-- Modelled from the spec (§6): the configuration; only the fields the
given sources read are modelled (`rotation_allowed` in the parser,
`max_run_time` in the collector). -/
structure Config where
  rotation_allowed : Bool
  max_run_time : Nat
deriving DecidableEq

/-- `usize::MAX` on the 64-bit targets the solver runs on. -/
def usizeMax : Nat := 2 ^ 64 - 1

/- ====================================================================
   src/io/parser.rs : generate_instance
   ==================================================================== -/

/-- The first loop of `generate_instance` (src/io/parser.rs lines 17-30):
walks the JSON part list carrying the running `part_id`, writes the id back
into the `reference` field and builds the `(PartType, demand)` pairs. -/
def generateParts (config : Config) :
    List JsonPartType → Nat → List JsonPartType × List (PartType × Nat)
  | [], _ => ([], [])
  | jp :: rest, part_id =>
      let jp_out := { jp with reference := some part_id }
      let parttype := PartType.new part_id jp.length jp.height
        (if config.rotation_allowed then none else some Rotation.Default)
      let (jrest, prest) := generateParts config rest (part_id + 1)
      (jp_out :: jrest, (parttype, jp.demand) :: prest)

/-- The second loop of `generate_instance` (src/io/parser.rs lines 32-49):
walks the JSON sheet list carrying the running `sheet_id`; an absent
`stock` becomes `usize::MAX`. -/
def generateSheets :
    List JsonSheetType → Nat → List JsonSheetType × List (SheetType × Nat)
  | [], _ => ([], [])
  | js :: rest, sheet_id =>
      let js_out := { js with reference := some sheet_id }
      let sheettype := SheetType.new_with_id sheet_id js.length js.height js.cost
      let stock := match js.stock with
        | some stock => stock
        | none => usizeMax
      let (jrest, srest) := generateSheets rest (sheet_id + 1)
      (js_out :: jrest, (sheettype, stock) :: srest)

/-- `generate_instance` (src/io/parser.rs lines 16-52).  The Rust function
mutates `json_instance` (writing the `reference` fields) and returns the
`Instance`; both are returned here. -/
def generate_instance (json_instance : JsonInstance) (config : Config) :
    JsonInstance × Instance :=
  let (jparts, parts) := generateParts config json_instance.parttypes 0
  let (jsheets, sheets) := generateSheets json_instance.sheettypes 0
  ({ parttypes := jparts, sheettypes := jsheets },
   { parts := parts, sheets := sheets })

/- ====================================================================
   Theorems: C10, C8
   ==================================================================== -/

theorem generateParts_spec (config : Config) :
    ∀ (l : List JsonPartType) (start i : Nat), i < l.length →
      ((generateParts config l start).1[i]? =
        (l[i]?).map (fun jp => { jp with reference := some (start + i) })) ∧
      ((generateParts config l start).2[i]? =
        (l[i]?).map (fun jp =>
          (PartType.new (start + i) jp.length jp.height
            (if config.rotation_allowed then none else some Rotation.Default),
           jp.demand))) := by
  intro l
  induction l with
  | nil => intro start i h; simp at h
  | cons jp rest ih =>
      intro start i h
      cases i with
      | zero => simp [generateParts]
      | succ j =>
          have hj : j < rest.length := by
            simpa [Nat.succ_lt_succ_iff] using h
          have hrec := ih (start + 1) j hj
          constructor
          · have := hrec.1
            simpa [generateParts, Nat.add_assoc, Nat.add_comm, Nat.add_left_comm]
              using this
          · have := hrec.2
            simpa [generateParts, Nat.add_assoc, Nat.add_comm, Nat.add_left_comm]
              using this

theorem generateSheets_spec :
    ∀ (l : List JsonSheetType) (start i : Nat), i < l.length →
      ((generateSheets l start).1[i]? =
        (l[i]?).map (fun js => { js with reference := some (start + i) })) ∧
      ((generateSheets l start).2[i]? =
        (l[i]?).map (fun js =>
          (SheetType.new_with_id (start + i) js.length js.height js.cost,
           match js.stock with
           | some stock => stock
           | none => usizeMax))) := by
  intro l
  induction l with
  | nil => intro start i h; simp at h
  | cons js rest ih =>
      intro start i h
      cases i with
      | zero => simp [generateSheets]
      | succ j =>
          have hj : j < rest.length := by
            simpa [Nat.succ_lt_succ_iff] using h
          have hrec := ih (start + 1) j hj
          constructor
          · have := hrec.1
            simpa [generateSheets, Nat.add_assoc, Nat.add_comm, Nat.add_left_comm]
              using this
          · have := hrec.2
            simpa [generateSheets, Nat.add_assoc, Nat.add_comm, Nat.add_left_comm]
              using this

/-- C8: `generate_instance` assigns to each part type and each sheet type a
dense 0-based id equal to its position in the input list, writes that id
back as the JSON `reference` field, and a sheet type whose `stock` field is
absent receives unlimited stock (`usize::MAX`). -/
theorem generate_instance_dense_ids_and_default_stock
    (ji : JsonInstance) (config : Config) (i : Nat) :
    (i < ji.parttypes.length →
      ((generate_instance ji config).2.parts[i]?).map (fun pq => pq.1.id)
        = some i ∧
      ((generate_instance ji config).1.parttypes[i]?).map
        (fun jp => jp.reference) = some (some i)) ∧
    (i < ji.sheettypes.length →
      ((generate_instance ji config).2.sheets[i]?).map (fun sq => sq.1.id)
        = some i ∧
      ((generate_instance ji config).1.sheettypes[i]?).map
        (fun js => js.reference) = some (some i) ∧
      (((ji.sheettypes[i]?).map (fun js => js.stock)) = some none →
        ((generate_instance ji config).2.sheets[i]?).map (fun sq => sq.2)
          = some usizeMax)) := by
  constructor
  · intro h
    have hs := generateParts_spec config ji.parttypes 0 i h
    obtain ⟨jp, hjp⟩ : ∃ jp, ji.parttypes[i]? = some jp := by
      rw [List.getElem?_eq_getElem h]; exact ⟨_, rfl⟩
    constructor
    · simp [generate_instance, hs.2, hjp, PartType.new]
    · simp [generate_instance, hs.1, hjp]
  · intro h
    have hs := generateSheets_spec ji.sheettypes 0 i h
    obtain ⟨js, hjs⟩ : ∃ js, ji.sheettypes[i]? = some js := by
      rw [List.getElem?_eq_getElem h]; exact ⟨_, rfl⟩
    refine ⟨?_, ?_, ?_⟩
    · simp [generate_instance, hs.2, hjs, SheetType.new_with_id]
    · simp [generate_instance, hs.1, hjs]
    · intro hstock
      have : js.stock = none := by simpa [hjs] using hstock
      simp [generate_instance, hs.2, hjs, this]

/-- Witness for C8 at a concrete two-part, two-sheet instance (the second
sheet has no `stock` field). -/
theorem generate_instance_dense_ids_and_default_stock_witness :
    (1 < ([⟨30, 40, 2, none⟩, ⟨10, 20, 5, none⟩] : List JsonPartType).length) ∧
    (((generate_instance
        { parttypes := [⟨30, 40, 2, none⟩, ⟨10, 20, 5, none⟩],
          sheettypes := [⟨100, 100, 7, some 3, none⟩, ⟨50, 60, 4, none, none⟩] }
        { rotation_allowed := true, max_run_time := 60 }).2.parts[1]?).map
          (fun pq => pq.1.id) = some 1) ∧
    (((generate_instance
        { parttypes := [⟨30, 40, 2, none⟩, ⟨10, 20, 5, none⟩],
          sheettypes := [⟨100, 100, 7, some 3, none⟩, ⟨50, 60, 4, none, none⟩] }
        { rotation_allowed := true, max_run_time := 60 }).2.sheets[1]?).map
          (fun sq => sq.2) = some usizeMax) := by
  have h := generate_instance_dense_ids_and_default_stock
    { parttypes := [⟨30, 40, 2, none⟩, ⟨10, 20, 5, none⟩],
      sheettypes := [⟨100, 100, 7, some 3, none⟩, ⟨50, 60, 4, none, none⟩] }
    { rotation_allowed := true, max_run_time := 60 } 1
  refine ⟨by decide, (h.1 (by decide)).1, (h.2 (by decide)).2.2 (by decide)⟩

/-- C10: the hash of a `SheetType` depends only on its `id` field — two
values with equal ids produce identical hasher states whatever their
`width`, `height` or `value` — and `SheetType::new` always returns a value
with `id = 0`, so freshly constructed SheetTypes all hash alike until
`set_id` is called. -/
theorem sheettype_hash_depends_only_on_id {σ : Type}
    (hashNat : σ → Nat → σ) (state : σ) (s1 s2 : SheetType)
    (hid : s1.id = s2.id) (w h v : Nat) :
    SheetType.hashInto hashNat state s1 = SheetType.hashInto hashNat state s2 ∧
    (SheetType.new w h v).id = 0 ∧
    SheetType.hashInto hashNat state (SheetType.new w h v) =
      SheetType.hashInto hashNat state (SheetType.new 0 0 0) := by
  refine ⟨?_, rfl, rfl⟩
  simp [SheetType.hashInto, hid]

/-- Witness for C10: two sheet types with id 5 but different dimensions and
values hash to the same state. -/
theorem sheettype_hash_depends_only_on_id_witness :
    SheetType.hashInto (fun (st : List Nat) n => n :: st) []
        { id := 5, width := 10, height := 20, value := 3 } =
      SheetType.hashInto (fun (st : List Nat) n => n :: st) []
        { id := 5, width := 99, height := 1, value := 888 } :=
  (sheettype_hash_depends_only_on_id (fun (st : List Nat) n => n :: st) []
    { id := 5, width := 10, height := 20, value := 3 }
    { id := 5, width := 99, height := 1, value := 888 } (by decide) 1 2 3).1

/- ====================================================================
   src/optimization/sol_collectors/global_sol_collector.rs
   ==================================================================== -/

/-- Modelled from the spec (§3): the cost vector `(material_cost,
part_area_excluded)`; `material_cost` is a `u64`. -/
structure Cost where
  material_cost : Nat
  part_area_excluded : Nat
deriving DecidableEq

/-- Modelled from the spec (§3): a deep-detached solution copy; the
collector only reads its `cost()`. -/
structure SendableSolution where
  cost : Cost
deriving DecidableEq

/-- Modelled from the spec (§4.H): the stats record carried by
`NewIncompleteStats`; the collector only reads its `cost`. -/
structure SolutionStats where
  cost : Cost
deriving DecidableEq

/-- Modelled from the spec (§4.H): collector → worker messages. -/
inductive SyncMessage where
  | SyncMatLimit (limit : Nat)
  | Terminate
deriving DecidableEq

/-- Modelled from the spec (§4.H): worker → collector messages. -/
inductive SolutionReportMessage where
  | NewCompleteSolution (thread_name : String) (solution : SendableSolution)
  | NewIncompleteStats (thread_name : String) (stats : SolutionStats)
  | NewIncompleteSolution (thread_name : String) (solution : SendableSolution)
deriving DecidableEq

/-- Modelled from the spec (§6): the `MatThenArea` lexicographic cost
comparator, used as a concrete comparator in witnesses. -/
def matThenAreaComparator (a b : Cost) : Ordering :=
  match compare a.material_cost b.material_cost with
  | Ordering.eq => compare a.part_area_excluded b.part_area_excluded
  | o => o

/-- `GlobalSolCollector` (lines 21-31).  The `tx_syncs` channel vector is
modelled by its length `n_workers`; a broadcast is a list with one message
per channel.  The `cost_comparator` function pointer is passed explicitly
to the functions that use it. -/
structure GlobalSolCollector where
  best_complete_solution : Option SendableSolution
  best_incomplete_solution : Option SendableSolution
  best_incomplete_cost : Option Cost
  material_limit : Nat
  n_workers : Nat
deriving DecidableEq

/-- `GlobalSolCollector::report_new_complete_solution` (lines 122-137).
Returns the updated collector and the messages sent (one per worker
channel on acceptance; the Rust code `.expect`s each send). -/
def GlobalSolCollector.report_new_complete_solution (g : GlobalSolCollector)
    (solution : SendableSolution) : GlobalSolCollector × List SyncMessage :=
  if solution.cost.material_cost < g.material_limit then
    if g.best_complete_solution.all
        (fun best => decide (solution.cost.material_cost < best.cost.material_cost)) then
      ({ g with best_incomplete_cost := none,
                best_incomplete_solution := none,
                material_limit := solution.cost.material_cost,
                best_complete_solution := some solution },
       List.replicate g.n_workers (SyncMessage.SyncMatLimit solution.cost.material_cost))
    else (g, [])
  else (g, [])

/-- `GlobalSolCollector::report_new_incomplete_solution` (lines 139-148). -/
def GlobalSolCollector.report_new_incomplete_solution (g : GlobalSolCollector)
    (cmp : Cost → Cost → Ordering) (solution : SendableSolution) :
    GlobalSolCollector :=
  if g.best_complete_solution.isNone then
    if g.best_incomplete_solution.all
        (fun best => cmp solution.cost best.cost == Ordering.lt) then
      { g with best_incomplete_solution := some solution }
    else g
  else g

/-- `GlobalSolCollector::report_new_incomplete_cost` (lines 150-158).
Note the outer guard is `stats.cost.material_cost < self.material_limit`,
not `self.best_complete_solution.is_none()`. -/
def GlobalSolCollector.report_new_incomplete_cost (g : GlobalSolCollector)
    (cmp : Cost → Cost → Ordering) (stats : SolutionStats) :
    GlobalSolCollector :=
  if stats.cost.material_cost < g.material_limit then
    if g.best_incomplete_cost.all
        (fun best => cmp stats.cost best == Ordering.lt) then
      { g with best_incomplete_cost := some stats.cost }
    else g
  else g

/-- The message-dispatch `match` of the monitor's drain loop
(lines 72-85). -/
def GlobalSolCollector.dispatch_report (g : GlobalSolCollector)
    (cmp : Cost → Cost → Ordering) (msg : SolutionReportMessage) :
    GlobalSolCollector × List SyncMessage :=
  match msg with
  | SolutionReportMessage.NewCompleteSolution _ solution =>
      g.report_new_complete_solution solution
  | SolutionReportMessage.NewIncompleteStats _ stats =>
      (g.report_new_incomplete_cost cmp stats, [])
  | SolutionReportMessage.NewIncompleteSolution _ solution =>
      (g.report_new_incomplete_solution cmp solution, [])

/-- The inner `while let Ok(message) = try_recv()` drain (lines 72-85):
processes the messages available this iteration, collecting the broadcasts
emitted along the way.  A disconnected or empty channel simply ends the
drain. -/
def GlobalSolCollector.drain_reports (cmp : Cost → Cost → Ordering) :
    GlobalSolCollector → List SolutionReportMessage →
    GlobalSolCollector × List SyncMessage
  | g, [] => (g, [])
  | g, msg :: rest =>
      let step := g.dispatch_report cmp msg
      let recs := GlobalSolCollector.drain_reports cmp step.1 rest
      (recs.1, step.2 ++ recs.2)

/-- One observation of the monitor's environment per iteration of the
`while` loop (lines 68-90): the interrupt flag read at the loop condition,
the truncated elapsed seconds `(Instant::now() - start_time).as_secs()`,
the messages waiting in the report channel, and whether
`gdrr_thread_handlers.iter().all(|h| h.is_finished())`. -/
structure MonitorTick where
  running : Bool
  elapsed_secs : Nat
  reports : List SolutionReportMessage
  all_finished : Bool
deriving DecidableEq

/-- Why the monitor `while` loop stopped. -/
inductive MonitorExit where
  | interruptedOrTimedOut
  | allThreadsFinished
  | traceEnded
deriving DecidableEq

/-- The monitor `while` loop (lines 68-90), driven by a finite trace of
environment observations.  Each iteration first evaluates the loop
condition `running && elapsed_secs < max_run_time`, then (after the sleep)
drains the report channel, then breaks if all worker handles are
finished.  `traceEnded` means the trace ran out with the loop still
running. -/
def GlobalSolCollector.monitor_loop (cmp : Cost → Cost → Ordering)
    (max_run_time : Nat) :
    GlobalSolCollector → List MonitorTick →
    GlobalSolCollector × List SyncMessage × MonitorExit
  | g, [] => (g, [], MonitorExit.traceEnded)
  | g, t :: ts =>
      if t.running && decide (t.elapsed_secs < max_run_time) then
        let drained := GlobalSolCollector.drain_reports cmp g t.reports
        if t.all_finished then
          (drained.1, drained.2, MonitorExit.allThreadsFinished)
        else
          let recs := GlobalSolCollector.monitor_loop cmp max_run_time drained.1 ts
          (recs.1, drained.2 ++ recs.2.1, recs.2.2)
      else (g, [], MonitorExit.interruptedOrTimedOut)

/-- Result of `GlobalSolCollector::monitor`: final collector state, the
broadcasts sent while draining, the loop exit reason, the `Terminate`
messages sent after the loop, and the number of worker handles joined. -/
structure MonitorResult where
  collector : GlobalSolCollector
  drain_sends : List SyncMessage
  exitReason : MonitorExit
  terminate_sends : List SyncMessage
  joined : Nat
deriving DecidableEq

/-- `GlobalSolCollector::monitor` (lines 59-102): run the loop, then send
`SyncMessage::Terminate` on every worker sync channel — the send result is
matched and a failure (`send_ok` false) is ignored — then join every
worker thread handle (`handles` of them). -/
def GlobalSolCollector.monitor (cmp : Cost → Cost → Ordering)
    (max_run_time : Nat) (g : GlobalSolCollector) (ticks : List MonitorTick)
    (_send_ok : List Bool) (handles : Nat) : MonitorResult :=
  let looped := GlobalSolCollector.monitor_loop cmp max_run_time g ticks
  { collector := looped.1,
    drain_sends := looped.2.1,
    exitReason := looped.2.2,
    terminate_sends := List.replicate looped.1.n_workers SyncMessage.Terminate,
    joined := handles }

/- ====================================================================
   Theorems: C5, C6, C7
   ==================================================================== -/

/-- C5: the collector accepts a `NewCompleteSolution` iff the solution's
`material_cost` is strictly below the current `material_limit`; on
acceptance it stores the solution as best complete solution, clears the
best-incomplete solution and cost, lowers `material_limit` to the
solution's `material_cost` and sends `SyncMatLimit` with that cost to
every worker channel.  The hypothesis is the collector's reachable-state
invariant: whenever a best complete solution is recorded, the material
limit is at most its material cost (acceptance always sets
`material_limit` to exactly the stored solution's cost). -/
theorem report_new_complete_solution_accept_iff (g : GlobalSolCollector)
    (solution : SendableSolution)
    (hinv : ∀ s, g.best_complete_solution = some s →
      g.material_limit ≤ s.cost.material_cost) :
    (solution.cost.material_cost < g.material_limit →
      g.report_new_complete_solution solution =
        ({ g with best_incomplete_cost := none,
                  best_incomplete_solution := none,
                  material_limit := solution.cost.material_cost,
                  best_complete_solution := some solution },
         List.replicate g.n_workers
           (SyncMessage.SyncMatLimit solution.cost.material_cost))) ∧
    (¬ solution.cost.material_cost < g.material_limit →
      g.report_new_complete_solution solution = (g, [])) := by
  constructor
  · intro hlt
    have hinner : g.best_complete_solution.all
        (fun best => decide (solution.cost.material_cost < best.cost.material_cost))
          = true := by
      cases hbest : g.best_complete_solution with
      | none => rfl
      | some s =>
          have := hinv s hbest
          simp [Option.all]
          exact lt_of_lt_of_le hlt this
    simp [GlobalSolCollector.report_new_complete_solution, hlt, hinner]
  · intro hge
    simp [GlobalSolCollector.report_new_complete_solution, hge]

/-- Witness for C5: a collector with no best complete solution and limit
100 accepts a solution of material cost 40 and broadcasts the new limit to
its three worker channels. -/
theorem report_new_complete_solution_accept_iff_witness :
    GlobalSolCollector.report_new_complete_solution
      { best_complete_solution := none, best_incomplete_solution := none,
        best_incomplete_cost := some { material_cost := 60, part_area_excluded := 5 },
        material_limit := 100, n_workers := 3 }
      { cost := { material_cost := 40, part_area_excluded := 0 } } =
      ({ best_complete_solution :=
            some { cost := { material_cost := 40, part_area_excluded := 0 } },
         best_incomplete_solution := none, best_incomplete_cost := none,
         material_limit := 40, n_workers := 3 },
       [SyncMessage.SyncMatLimit 40, SyncMessage.SyncMatLimit 40,
        SyncMessage.SyncMatLimit 40]) := by
  have h := (report_new_complete_solution_accept_iff
    { best_complete_solution := none, best_incomplete_solution := none,
      best_incomplete_cost := some { material_cost := 60, part_area_excluded := 5 },
      material_limit := 100, n_workers := 3 }
    { cost := { material_cost := 40, part_area_excluded := 0 } }
    (by intro s hs; simp at hs)).1 (by decide)
  simpa [List.replicate] using h

/-- C6 counterexample: the claim says `best_incomplete_cost` is updated
only when no complete solution has been recorded yet, but
`report_new_incomplete_cost` guards on `material_cost < material_limit`
instead: a collector that already holds a best complete solution (cost 50,
limit 50) still records incomplete stats of material cost 40. -/
theorem report_new_incomplete_cost_updates_despite_complete :
    (GlobalSolCollector.report_new_incomplete_cost
      { best_complete_solution :=
          some { cost := { material_cost := 50, part_area_excluded := 0 } },
        best_incomplete_solution := none, best_incomplete_cost := none,
        material_limit := 50, n_workers := 2 }
      matThenAreaComparator
      { cost := { material_cost := 40, part_area_excluded := 7 } }).best_incomplete_cost
      = some { material_cost := 40, part_area_excluded := 7 } ∧
    ({ best_complete_solution :=
          some { cost := { material_cost := 50, part_area_excluded := 0 } },
        best_incomplete_solution := none, best_incomplete_cost := none,
        material_limit := 50, n_workers := 2 } :
          GlobalSolCollector).best_complete_solution.isSome = true := by
  constructor
  · simp [GlobalSolCollector.report_new_incomplete_cost, Option.all]
  · rfl

/-- C6 (amended): on a `NewIncompleteStats` message the collector updates
`best_incomplete_cost` (and nothing else) exactly when the reported cost's
`material_cost` is strictly below the current `material_limit` and the
reported cost is strictly better than the current best incomplete cost
under the cost comparator (or no best incomplete cost is recorded). -/
theorem report_new_incomplete_cost_update_iff (g : GlobalSolCollector)
    (cmp : Cost → Cost → Ordering) (stats : SolutionStats) :
    ((stats.cost.material_cost < g.material_limit ∧
        (∀ b, g.best_incomplete_cost = some b → cmp stats.cost b = Ordering.lt)) →
      g.report_new_incomplete_cost cmp stats =
        { g with best_incomplete_cost := some stats.cost }) ∧
    ((¬ (stats.cost.material_cost < g.material_limit ∧
        (∀ b, g.best_incomplete_cost = some b → cmp stats.cost b = Ordering.lt))) →
      g.report_new_incomplete_cost cmp stats = g) := by
  constructor
  · rintro ⟨hlt, hcmp⟩
    have hinner : g.best_incomplete_cost.all
        (fun best => cmp stats.cost best == Ordering.lt) = true := by
      cases hbest : g.best_incomplete_cost with
      | none => rfl
      | some b => simp [Option.all, hcmp b hbest]; rfl
    simp [GlobalSolCollector.report_new_incomplete_cost, hlt, hinner]
  · intro hnot
    by_cases hlt : stats.cost.material_cost < g.material_limit
    · have hbad : ¬ ∀ b, g.best_incomplete_cost = some b →
          cmp stats.cost b = Ordering.lt := fun hc => hnot ⟨hlt, hc⟩
      cases hbest : g.best_incomplete_cost with
      | none => exact absurd (fun b hb => by rw [hbest] at hb; cases hb) hbad
      | some b =>
          have hne : ¬ cmp stats.cost b = Ordering.lt := by
            intro he
            exact hbad (fun c hc => by
              rw [hbest] at hc; cases hc; exact he)
          have hinner : g.best_incomplete_cost.all
              (fun best => cmp stats.cost best == Ordering.lt) = false := by
            rw [hbest]
            cases h3 : cmp stats.cost b <;> simp_all [Option.all] <;> rfl
          simp [GlobalSolCollector.report_new_incomplete_cost, hlt, hinner]
    · simp [GlobalSolCollector.report_new_incomplete_cost, hlt]

/-- Witness for C6's amended theorem: with no complete solution, limit 100
and no prior incomplete cost, the stats are recorded. -/
theorem report_new_incomplete_cost_update_iff_witness :
    GlobalSolCollector.report_new_incomplete_cost
      { best_complete_solution := none, best_incomplete_solution := none,
        best_incomplete_cost := none, material_limit := 100, n_workers := 2 }
      matThenAreaComparator
      { cost := { material_cost := 30, part_area_excluded := 4 } } =
      { best_complete_solution := none, best_incomplete_solution := none,
        best_incomplete_cost := some { material_cost := 30, part_area_excluded := 4 },
        material_limit := 100, n_workers := 2 } := by
  have h := (report_new_incomplete_cost_update_iff
    { best_complete_solution := none, best_incomplete_solution := none,
      best_incomplete_cost := none, material_limit := 100, n_workers := 2 }
    matThenAreaComparator
    { cost := { material_cost := 30, part_area_excluded := 4 } }).1
    ⟨by decide, by intro b hb; cases hb⟩
  simpa using h

theorem report_new_complete_solution_preserves_n_workers
    (g : GlobalSolCollector) (solution : SendableSolution) :
    (g.report_new_complete_solution solution).1.n_workers = g.n_workers := by
  unfold GlobalSolCollector.report_new_complete_solution
  split_ifs <;> rfl

theorem report_new_incomplete_solution_preserves_n_workers
    (g : GlobalSolCollector) (cmp : Cost → Cost → Ordering)
    (solution : SendableSolution) :
    (g.report_new_incomplete_solution cmp solution).n_workers = g.n_workers := by
  unfold GlobalSolCollector.report_new_incomplete_solution
  split_ifs <;> rfl

theorem report_new_incomplete_cost_preserves_n_workers
    (g : GlobalSolCollector) (cmp : Cost → Cost → Ordering)
    (stats : SolutionStats) :
    (g.report_new_incomplete_cost cmp stats).n_workers = g.n_workers := by
  unfold GlobalSolCollector.report_new_incomplete_cost
  split_ifs <;> rfl

theorem dispatch_report_preserves_n_workers (g : GlobalSolCollector)
    (cmp : Cost → Cost → Ordering) (msg : SolutionReportMessage) :
    (g.dispatch_report cmp msg).1.n_workers = g.n_workers := by
  cases msg with
  | NewCompleteSolution name solution =>
      simpa [GlobalSolCollector.dispatch_report] using
        report_new_complete_solution_preserves_n_workers g solution
  | NewIncompleteStats name stats =>
      simpa [GlobalSolCollector.dispatch_report] using
        report_new_incomplete_cost_preserves_n_workers g cmp stats
  | NewIncompleteSolution name solution =>
      simpa [GlobalSolCollector.dispatch_report] using
        report_new_incomplete_solution_preserves_n_workers g cmp solution

theorem drain_reports_preserves_n_workers (cmp : Cost → Cost → Ordering) :
    ∀ (msgs : List SolutionReportMessage) (g : GlobalSolCollector),
      (GlobalSolCollector.drain_reports cmp g msgs).1.n_workers = g.n_workers := by
  intro msgs
  induction msgs with
  | nil => intro g; rfl
  | cons msg rest ih =>
      intro g
      have h1 := dispatch_report_preserves_n_workers g cmp msg
      have h2 := ih (g.dispatch_report cmp msg).1
      simp [GlobalSolCollector.drain_reports]
      rw [h2, h1]

theorem monitor_loop_preserves_n_workers (cmp : Cost → Cost → Ordering)
    (max_run_time : Nat) :
    ∀ (ticks : List MonitorTick) (g : GlobalSolCollector),
      (GlobalSolCollector.monitor_loop cmp max_run_time g ticks).1.n_workers
        = g.n_workers := by
  intro ticks
  induction ticks with
  | nil => intro g; rfl
  | cons t ts ih =>
      intro g
      by_cases hcond : (t.running && decide (t.elapsed_secs < max_run_time)) = true
      · by_cases hfin : t.all_finished = true
        · simp [GlobalSolCollector.monitor_loop, hcond, hfin,
            drain_reports_preserves_n_workers]
        · have h1 := drain_reports_preserves_n_workers cmp t.reports g
          have h2 := ih (GlobalSolCollector.drain_reports cmp g t.reports).1
          simp [GlobalSolCollector.monitor_loop, hcond, hfin]
          rw [h2, h1]
      · simp [GlobalSolCollector.monitor_loop, hcond]

theorem monitor_loop_exit_iff (cmp : Cost → Cost → Ordering)
    (max_run_time : Nat) :
    ∀ (ticks : List MonitorTick) (g : GlobalSolCollector),
      (GlobalSolCollector.monitor_loop cmp max_run_time g ticks).2.2
          ≠ MonitorExit.traceEnded ↔
        ∃ t ∈ ticks, t.running = false ∨ max_run_time ≤ t.elapsed_secs ∨
          t.all_finished = true := by
  intro ticks
  induction ticks with
  | nil => intro g; simp [GlobalSolCollector.monitor_loop]
  | cons t ts ih =>
      intro g
      by_cases hcond : (t.running && decide (t.elapsed_secs < max_run_time)) = true
      · have hb := hcond
        rw [Bool.and_eq_true] at hb
        have hrun : t.running = true := hb.1
        have htime : t.elapsed_secs < max_run_time := of_decide_eq_true hb.2
        by_cases hfin : t.all_finished = true
        · constructor
          · intro _
            exact ⟨t, List.mem_cons_self t ts, Or.inr (Or.inr hfin)⟩
          · intro _
            simp [GlobalSolCollector.monitor_loop, hcond, hfin]
        · have hrec := ih (GlobalSolCollector.drain_reports cmp g t.reports).1
          have hloop : (GlobalSolCollector.monitor_loop cmp max_run_time g (t :: ts)).2.2
              = (GlobalSolCollector.monitor_loop cmp max_run_time
                  (GlobalSolCollector.drain_reports cmp g t.reports).1 ts).2.2 := by
            simp [GlobalSolCollector.monitor_loop, hcond, hfin]
          rw [hloop]
          constructor
          · intro hne
            rcases hrec.mp hne with ⟨u, hu, hq⟩
            exact ⟨u, List.mem_cons_of_mem t hu, hq⟩
          · rintro ⟨u, hu, hq⟩
            rcases List.mem_cons.mp hu with rfl | hu
            · rcases hq with hq | hq | hq
              · rw [hrun] at hq; cases hq
              · exact absurd htime (Nat.not_lt.mpr hq)
              · exact absurd hq hfin
            · exact hrec.mpr ⟨u, hu, hq⟩
      · have hexit : (GlobalSolCollector.monitor_loop cmp max_run_time g (t :: ts)).2.2
            = MonitorExit.interruptedOrTimedOut := by
          simp [GlobalSolCollector.monitor_loop, hcond]
        rw [hexit]
        constructor
        · intro _
          refine ⟨t, List.mem_cons_self t ts, ?_⟩
          cases hr : t.running with
          | false => exact Or.inl rfl
          | true =>
              refine Or.inr (Or.inl ?_)
              by_cases ht : t.elapsed_secs < max_run_time
              · exact absurd (by simp [hr, ht]) hcond
              · exact Nat.not_lt.mp ht
        · intro _
          decide

/-- C7: the monitor loop terminates exactly when all worker handles are
finished, or the interrupt flag has been cleared by the Ctrl-C handler, or
the truncated elapsed wall-clock seconds have reached
`config.max_run_time`; after the loop exits a `Terminate` message is sent
on every worker sync channel — a failed send (`send_ok` entry `false`) is
ignored and does not affect anything — and every worker thread handle is
joined. -/
theorem monitor_exit_and_shutdown (cmp : Cost → Cost → Ordering)
    (max_run_time : Nat) (g : GlobalSolCollector) (ticks : List MonitorTick)
    (send_ok : List Bool) (handles : Nat) :
    ((GlobalSolCollector.monitor cmp max_run_time g ticks send_ok
        handles).exitReason ≠ MonitorExit.traceEnded ↔
      ∃ t ∈ ticks, t.running = false ∨ max_run_time ≤ t.elapsed_secs ∨
        t.all_finished = true) ∧
    (GlobalSolCollector.monitor cmp max_run_time g ticks send_ok
        handles).terminate_sends =
      List.replicate g.n_workers SyncMessage.Terminate ∧
    (GlobalSolCollector.monitor cmp max_run_time g ticks send_ok
        handles).joined = handles ∧
    (∀ send_ok2, GlobalSolCollector.monitor cmp max_run_time g ticks send_ok2
        handles =
      GlobalSolCollector.monitor cmp max_run_time g ticks send_ok handles) := by
  refine ⟨?_, ?_, rfl, fun send_ok2 => rfl⟩
  · exact monitor_loop_exit_iff cmp max_run_time ticks g
  · show List.replicate
      (GlobalSolCollector.monitor_loop cmp max_run_time g ticks).1.n_workers
      SyncMessage.Terminate = List.replicate g.n_workers SyncMessage.Terminate
    rw [monitor_loop_preserves_n_workers]

/-- Witness for C7 at a concrete trace: two workers, a 60-second budget,
first tick healthy, second tick with all worker threads finished. -/
theorem monitor_exit_and_shutdown_witness :
    (GlobalSolCollector.monitor matThenAreaComparator 60
        { best_complete_solution := none, best_incomplete_solution := none,
          best_incomplete_cost := none, material_limit := 100, n_workers := 2 }
        [{ running := true, elapsed_secs := 0, reports := [], all_finished := false },
         { running := true, elapsed_secs := 1, reports := [], all_finished := true }]
        [true, false] 2).exitReason ≠ MonitorExit.traceEnded ∧
    (GlobalSolCollector.monitor matThenAreaComparator 60
        { best_complete_solution := none, best_incomplete_solution := none,
          best_incomplete_cost := none, material_limit := 100, n_workers := 2 }
        [{ running := true, elapsed_secs := 0, reports := [], all_finished := false },
         { running := true, elapsed_secs := 1, reports := [], all_finished := true }]
        [true, false] 2).terminate_sends =
      [SyncMessage.Terminate, SyncMessage.Terminate] := by
  have h := monitor_exit_and_shutdown matThenAreaComparator 60
    { best_complete_solution := none, best_incomplete_solution := none,
      best_incomplete_cost := none, material_limit := 100, n_workers := 2 }
    [{ running := true, elapsed_secs := 0, reports := [], all_finished := false },
     { running := true, elapsed_secs := 1, reports := [], all_finished := true }]
    [true, false] 2
  refine ⟨h.1.mpr ?_, by simpa [List.replicate] using h.2.1⟩
  exact ⟨{ running := true, elapsed_secs := 1, reports := [], all_finished := true },
    by simp, Or.inr (Or.inr rfl)⟩

/- ====================================================================
   src/io/parser.rs : convert_node_bp_to_json_cp_node
   ==================================================================== -/

/-- Modelled from the spec (§3): cut orientations. -/
inductive Orientation where
  | Horizontal
  | Vertical
deriving DecidableEq

/-- Modelled from the spec (§6): CPNode `node_type` tags. -/
inductive JsonCPNodeType where
  | Structure
  | Item
  | Leftover
deriving DecidableEq

/-- Modelled from the spec (§6): the serialized cut orientation. -/
inductive JsonOrientation where
  | H
  | V
deriving DecidableEq

/-- Modelled from the spec (§6): a `CPNode` of the solution JSON. -/
inductive JsonCPNode where
  | mk (length height : Nat) (orientation : Option JsonOrientation)
      (node_type : JsonCPNodeType) (item : Option Nat)
      (children : List JsonCPNode)

/-- Modelled from the spec: `NodeBlueprint`
(src/core/insertion/node_blueprint.rs is not among the given sources); the
parser reads `width()`, `height()`, `next_cut_orient()`, `parttype_id()`
and `children()`. -/
inductive NodeBlueprint where
  | mk (width height : Nat) (next_cut_orient : Orientation)
      (parttype_id : Option Nat) (children : List NodeBlueprint)

/-- `NodeBlueprint::children()`. -/
def NodeBlueprint.children : NodeBlueprint → List NodeBlueprint
  | NodeBlueprint.mk _ _ _ _ cs => cs

/-- `NodeBlueprint::parttype_id()`. -/
def NodeBlueprint.parttype_id : NodeBlueprint → Option Nat
  | NodeBlueprint.mk _ _ _ pt _ => pt

mutual

/-- `convert_node_bp_to_json_cp_node` (src/io/parser.rs lines 91-127):
converts the children first, then classifies the node by
`(parttype_id, children.is_empty())`; the `(Some, false)` arm is
`panic!("This should not happen")`, modelled as `none`. -/
def convert_node_bp_to_json_cp_node (node : NodeBlueprint) :
    Option JsonCPNode :=
  match node with
  | NodeBlueprint.mk width height next_cut_orient parttype_id children =>
      match convert_children children with
      | none => none
      | some cs =>
          match parttype_id, children.isEmpty with
          | none, true =>
              some (JsonCPNode.mk width height none JsonCPNodeType.Leftover
                none cs)
          | none, false =>
              some (JsonCPNode.mk width height
                (some (match next_cut_orient with
                  | Orientation.Horizontal => JsonOrientation.H
                  | Orientation.Vertical => JsonOrientation.V))
                JsonCPNodeType.Structure none cs)
          | some pt, true =>
              some (JsonCPNode.mk width height none JsonCPNodeType.Item
                (some pt) cs)
          | some _, false => none

/-- The `for child in node.children()` recursion of the converter; a
panicking child propagates. -/
def convert_children : List NodeBlueprint → Option (List JsonCPNode)
  | [] => some []
  | c :: rest =>
      match convert_node_bp_to_json_cp_node c with
      | none => none
      | some j =>
          match convert_children rest with
          | none => none
          | some js => some (j :: js)

end

mutual

/-- Every node of the blueprint tree that carries a `parttype_id` has no
children (Items are leaves). -/
def items_are_leaves (node : NodeBlueprint) : Bool :=
  match node with
  | NodeBlueprint.mk _ _ _ parttype_id children =>
      (parttype_id.isNone || children.isEmpty) && items_are_leaves_list children

def items_are_leaves_list : List NodeBlueprint → Bool
  | [] => true
  | c :: rest => items_are_leaves c && items_are_leaves_list rest

end

mutual

theorem convert_total : ∀ (node : NodeBlueprint),
    items_are_leaves node = true →
    (convert_node_bp_to_json_cp_node node).isSome = true
  | NodeBlueprint.mk width height orient parttype_id children, hyp => by
      have hsplit : (parttype_id.isNone || children.isEmpty) = true ∧
          items_are_leaves_list children = true := by
        rw [← Bool.and_eq_true]
        exact hyp
      have hcs := convert_children_total children hsplit.2
      obtain ⟨cs, hcseq⟩ := Option.isSome_iff_exists.mp hcs
      cases hpt : parttype_id with
      | none =>
          cases hemp : children.isEmpty with
          | true => simp [convert_node_bp_to_json_cp_node, hcseq, hpt, hemp]
          | false => simp [convert_node_bp_to_json_cp_node, hcseq, hpt, hemp]
      | some pt =>
          have hemp : children.isEmpty = true := by
            have := hsplit.1
            rw [hpt] at this
            simpa using this
          simp [convert_node_bp_to_json_cp_node, hcseq, hpt, hemp]

theorem convert_children_total : ∀ (l : List NodeBlueprint),
    items_are_leaves_list l = true →
    (convert_children l).isSome = true
  | [], _ => rfl
  | c :: rest, hyp => by
      have hsplit : items_are_leaves c = true ∧
          items_are_leaves_list rest = true := by
        rw [← Bool.and_eq_true]
        exact hyp
      have h1 := convert_total c hsplit.1
      have h2 := convert_children_total rest hsplit.2
      obtain ⟨j, hj⟩ := Option.isSome_iff_exists.mp h1
      obtain ⟨js, hjs⟩ := Option.isSome_iff_exists.mp h2
      simp [convert_children, hj, hjs]

end

/-- C9: for every node blueprint in which each node carrying a
`parttype_id` has no children, `convert_node_bp_to_json_cp_node` never
reaches its `panic!` branch: the classification by
`(parttype_id, children.is_empty())` into Leftover / Structure / Item is
total and the conversion returns a value. -/
theorem convert_node_bp_total_when_items_are_leaves (node : NodeBlueprint)
    (h : items_are_leaves node = true) :
    (convert_node_bp_to_json_cp_node node).isSome = true :=
  convert_total node h

/-- Witness for C9: a structure node with an item child and a leftover
child converts successfully. -/
theorem convert_node_bp_total_when_items_are_leaves_witness :
    (convert_node_bp_to_json_cp_node
      (NodeBlueprint.mk 100 100 Orientation.Vertical none
        [NodeBlueprint.mk 60 100 Orientation.Horizontal (some 0) [],
         NodeBlueprint.mk 40 100 Orientation.Horizontal none []])).isSome
      = true :=
  convert_node_bp_total_when_items_are_leaves
    (NodeBlueprint.mk 100 100 Orientation.Vertical none
      [NodeBlueprint.mk 60 100 Orientation.Horizontal (some 0) [],
       NodeBlueprint.mk 40 100 Orientation.Horizontal none []])
    (by decide)


/- ====================================================================
   Layout tree model (spec §3, §4.B) for src/optimization/problem.rs
   ==================================================================== -/

/-- Modelled from the spec: a layout tree node (§3) — `kind ∈
{Structure(children), Item(parttype_id), Leftover}`
(src/core/entities/node.rs is not among the given sources).  The claims
C1-C4 quantify part counts and quantity bookkeeping only, so the geometric
attributes `(width, height, next_cut_orientation)` are not modelled. -/
inductive Node where
  | structureNode (children : List Node)
  | itemNode (parttype_id : Nat)
  | leftoverNode

mutual

/-- Number of `Item(q)` leaves in a subtree. -/
def Node.itemCount (q : Nat) : Node → Nat
  | Node.structureNode cs => Node.itemCountList q cs
  | Node.itemNode pt => if pt = q then 1 else 0
  | Node.leftoverNode => 0

def Node.itemCountList (q : Nat) : List Node → Nat
  | [] => 0
  | c :: cs => Node.itemCount q c + Node.itemCountList q cs

end

mutual

/-- Whether a subtree contains an `Item` descendant (spec §4.B:
`is_empty()` is "the top_node has no Item descendants"). -/
def Node.hasItem : Node → Bool
  | Node.structureNode cs => Node.hasItemList cs
  | Node.itemNode _ => true
  | Node.leftoverNode => false

def Node.hasItemList : List Node → Bool
  | [] => false
  | c :: cs => Node.hasItem c || Node.hasItemList cs

end

/-- `node.children()`: children of a Structure node, empty for leaves. -/
def Node.childrenOf : Node → List Node
  | Node.structureNode cs => cs
  | Node.itemNode _ => []
  | Node.leftoverNode => []

/-- A node handle inside a layout tree, as the list of child indices from
the top node (the source's `Rc` node references). -/
abbrev NodePath := List Nat

mutual

/-- Resolve a path to the node it denotes. -/
def Node.nodeAt : Node → NodePath → Option Node
  | n, [] => some n
  | Node.structureNode cs, i :: rest => Node.nodeAtList cs i rest
  | Node.itemNode _, _ :: _ => none
  | Node.leftoverNode, _ :: _ => none

def Node.nodeAtList : List Node → Nat → NodePath → Option Node
  | [], _, _ => none
  | c :: _, 0, rest => Node.nodeAt c rest
  | _ :: cs, i + 1, rest => Node.nodeAtList cs i rest

end

mutual

/-- Modelled from the spec (§4.B insert): replace the node at `path` —
a proper descendant of the top node — by the list `reps` of replacement
subtrees, spliced into the parent's children in its place. -/
def Node.replaceAt : Node → NodePath → List Node → Option Node
  | _, [], _ => none
  | Node.structureNode cs, i :: rest, reps =>
      match Node.replaceAtList cs i rest reps with
      | some cs2 => some (Node.structureNode cs2)
      | none => none
  | Node.itemNode _, _ :: _, _ => none
  | Node.leftoverNode, _ :: _, _ => none

def Node.replaceAtList :
    List Node → Nat → NodePath → List Node → Option (List Node)
  | [], _, _, _ => none
  | _ :: cs, 0, [], reps => some (reps ++ cs)
  | c :: cs, 0, j :: rest, reps =>
      match Node.replaceAt c (j :: rest) reps with
      | some c2 => some (c2 :: cs)
      | none => none
  | c :: cs, i + 1, rest, reps =>
      match Node.replaceAtList cs i rest reps with
      | some cs2 => some (c :: cs2)
      | none => none

end

/-- Whether a node is a Leftover leaf. -/
def Node.isLeftover : Node → Bool
  | Node.leftoverNode => true
  | Node.structureNode _ => false
  | Node.itemNode _ => false

/-- Modelled from the spec (§4.B remove): "adjacent Leftover siblings in
the same Structure are merged". -/
def Node.mergeLeftovers : List Node → List Node
  | [] => []
  | Node.leftoverNode :: rest =>
      match Node.mergeLeftovers rest with
      | Node.leftoverNode :: rest2 => Node.leftoverNode :: rest2
      | rest2 => Node.leftoverNode :: rest2
  | n :: rest => n :: Node.mergeLeftovers rest

mutual

/-- Modelled from the spec (§4.B remove): "while a Structure has all
Leftover children, collapse it into a single Leftover of the parent's
area; adjacent Leftover siblings in the same Structure are merged". -/
def Node.simplify : Node → Node
  | Node.structureNode cs =>
      let cs2 := Node.mergeLeftovers (Node.simplifyList cs)
      if cs2.all Node.isLeftover then Node.leftoverNode
      else Node.structureNode cs2
  | Node.itemNode pt => Node.itemNode pt
  | Node.leftoverNode => Node.leftoverNode

def Node.simplifyList : List Node → List Node
  | [] => []
  | c :: cs => Node.simplify c :: Node.simplifyList cs

end

/-- Modelled from the spec (§4.B remove): the top node itself is never
collapsed. -/
def Node.simplifyTop : Node → Node
  | Node.structureNode cs =>
      Node.structureNode (Node.mergeLeftovers (Node.simplifyList cs))
  | Node.itemNode pt => Node.itemNode pt
  | Node.leftoverNode => Node.leftoverNode

/-- Modelled from the spec (§3): a Layout `(id, sheettype_id, top_node)`
(src/core/entities/layout.rs is not among the given sources). -/
structure Layout where
  id : Nat
  sheettype_id : Nat
  top_node : Node

/-- Modelled from the spec (§4.B): `Layout::implement_insertion_blueprint`
— atomically replace the blueprint's target leaf (which must currently be
a Leftover leaf of this layout; §4.C "commit validates before executing")
by the replacement subtrees.  The returned cache updates are not
modelled. -/
def Layout.implement_insertion_blueprint (l : Layout) (path : NodePath)
    (replacements : List Node) : Option Layout :=
  match l.top_node.nodeAt path with
  | some Node.leftoverNode =>
      match l.top_node.replaceAt path replacements with
      | some t => some { l with top_node := t }
      | none => none
  | _ => none

/-- Modelled from the spec (§4.B): `Layout::remove_node` — the node must
be an `Item`; it becomes a `Leftover`, the tree is simplified (the top
node is never collapsed), and the released part type ids are returned. -/
def Layout.remove_node (l : Layout) (path : NodePath) :
    Option (Layout × List Nat) :=
  match l.top_node.nodeAt path with
  | some (Node.itemNode pt) =>
      match l.top_node.replaceAt path [Node.leftoverNode] with
      | some t => some ({ l with top_node := t.simplifyTop }, [pt])
      | none => none
  | _ => none

/-- Modelled from the spec (§4.B): `Layout::is_empty` — the top node has
no Item descendants. -/
def Layout.is_empty (l : Layout) : Bool :=
  ! l.top_node.hasItem

/-- Modelled from the spec (§4.B): `Layout::create_deep_copy` — a new
Layout with a fresh id, the same `sheettype_id` and a structurally
identical independent tree. -/
def Layout.create_deep_copy (l : Layout) (fresh_id : Nat) : Layout :=
  { id := fresh_id, sheettype_id := l.sheettype_id, top_node := l.top_node }

/- ====================================================================
   src/core/insertion/insertion_blueprint.rs and
   src/optimization/problem.rs
   ==================================================================== -/

/-- `InsertionBlueprint` (src/core/insertion/insertion_blueprint.rs):
`original_node` is a weak node reference, modelled as the path of the
target leaf inside the layout; `replacements` the materialized subtrees;
`layout` the optional weak layout reference, modelled by the layout's
unique id (spec §3: "Every Layout id is unique").  The `cost` field is not
modelled: `InsertionBlueprint::calculate_cost` is `todo!()` in the
source, so it carries no information. -/
structure InsertionBlueprint where
  original_node : NodePath
  replacements : List Node
  parttype : PartType
  layout : Option Nat

/-- `InsertionBlueprint::set_layout`. -/
def InsertionBlueprint.set_layout (bp : InsertionBlueprint) (lid : Nat) :
    InsertionBlueprint :=
  { bp with layout := some lid }

/-- `InsertionBlueprint::set_original_node`. -/
def InsertionBlueprint.set_original_node (bp : InsertionBlueprint)
    (path : NodePath) : InsertionBlueprint :=
  { bp with original_node := path }

/-- `Problem` (src/optimization/problem.rs lines 13-21).  The `random`
field (a thread RNG) is not modelled; the `instance` reference is the
field `instance_` (`instance` is a Lean keyword). -/
structure Problem where
  instance_ : Instance
  parttype_qtys : List Nat
  sheettype_qtys : List Nat
  layouts : List Layout
  empty_layouts : List Layout
  counter_layout_id : Nat

/-- `Problem::new` (lines 24-33). -/
def Problem.new (instance_ : Instance) : Problem :=
  { instance_ := instance_,
    parttype_qtys := instance_.parts.map (fun pq => pq.2),
    sheettype_qtys := instance_.sheets.map (fun sq => sq.2),
    layouts := [], empty_layouts := [], counter_layout_id := 0 }

/-- `Problem::register_part` (lines 114-119): `parttype_qtys[id] -= qty`.
In a debug build the `debug_assert!` evaluates `qtys[id] - qty`, which
panics on `usize` underflow; underflow is modelled as an error, an
out-of-range id as the index panic. -/
def Problem.register_part (p : Problem) (parttype : PartType) (qty : Nat) :
    Except String Problem :=
  match p.parttype_qtys[parttype.id]? with
  | none => Except.error "index out of bounds"
  | some q =>
      if qty ≤ q then
        Except.ok
          { p with parttype_qtys := p.parttype_qtys.set parttype.id (q - qty) }
      else Except.error "attempt to subtract with overflow"

/-- `Problem::release_part` (lines 121-126): `parttype_qtys[id] += qty`,
with `debug_assert!(qtys[id] + qty <= instance.get_parttype_qty(id)
.unwrap())`. -/
def Problem.release_part (p : Problem) (id qty : Nat) :
    Except String Problem :=
  match p.parttype_qtys[id]?, p.instance_.get_parttype_qty id with
  | some q, some demand =>
      if q + qty ≤ demand then
        Except.ok { p with parttype_qtys := p.parttype_qtys.set id (q + qty) }
      else Except.error "debug assertion failed: release_part"
  | _, _ => Except.error "index out of bounds"

/-- `Problem::register_layout` (lines 103-106): its body begins with
`todo!(); //register parts & sheets`, so every call panics ("not yet
implemented") before the `layouts.push`. -/
def Problem.register_layout (_p : Problem) (_layout : Layout) :
    Except String Problem :=
  Except.error "not yet implemented: register_layout"

/-- `Problem::release_layout` (lines 108-112): its body begins with
`todo!(); //register parts & sheets`, so every call panics ("not yet
implemented") before the `layouts.retain`. -/
def Problem.release_layout (_p : Problem) (_layout : Layout) :
    Except String Problem :=
  Except.error "not yet implemented: release_layout"

/-- `Problem::get_layout_id` (lines 142-145): pre-increments the counter. -/
def Problem.get_layout_id (p : Problem) : Problem × Nat :=
  ({ p with counter_layout_id := p.counter_layout_id + 1 },
   p.counter_layout_id + 1)

/-- Mutation through the found `Rc`: replace the first layout carrying
`lid` (the one `find?` locates). -/
def updateFirstLayout : List Layout → Nat → Layout → List Layout
  | [], _, _ => []
  | l :: ls, lid, l2 =>
      if l.id == lid then l2 :: ls else l :: updateFirstLayout ls lid l2

/-- `Problem::implement_insertion_blueprint` (lines 35-69).  The weak
layout reference is `upgrade().unwrap()`ed — modelled as an error when no
layout of the problem carries the id — and `blueprint_creates_new_layout`
mirrors the `Rc::ptr_eq` scan of `empty_layouts`.  In the `false` branch
the part is registered (`register_part`, decrement by 1) and the blueprint
is applied to the referenced layout in place.  In the `true` branch the
template is deep-copied, a copy of the blueprint is rebound to the first
child of the copy's top node (`children().first().unwrap()`), and
`register_layout` is called — whose `todo!()` panics, so this branch
never completes. -/
def Problem.implement_insertion_blueprint (p : Problem)
    (blueprint : InsertionBlueprint) : Except String (Problem × Bool) :=
  match blueprint.layout with
  | none => Except.error "blueprint has no layout"
  | some lid =>
      if (p.empty_layouts ++ p.layouts).all (fun l => ! (l.id == lid)) then
        Except.error "dangling layout reference"
      else
        if p.empty_layouts.any (fun l => l.id == lid) then
          match p.empty_layouts.find? (fun l => l.id == lid) with
          | none => Except.error "unreachable"
          | some tmpl =>
              let fresh := p.get_layout_id
              let copy := tmpl.create_deep_copy fresh.2
              match copy.top_node.childrenOf with
              | [] => Except.error "called Option::unwrap on a None value"
              | _ :: _ =>
                  let insertion_bp_copy :=
                    (blueprint.set_original_node [0]).set_layout copy.id
                  match fresh.1.register_layout copy with
                  | Except.error e => Except.error e
                  | Except.ok p2 =>
                      match copy.implement_insertion_blueprint
                          insertion_bp_copy.original_node
                          insertion_bp_copy.replacements with
                      | none => Except.error "stale blueprint"
                      | some copy2 =>
                          Except.ok
                            ({ p2 with layouts :=
                                updateFirstLayout p2.layouts copy.id copy2 },
                             true)
        else
          match p.register_part blueprint.parttype 1 with
          | Except.error e => Except.error e
          | Except.ok p1 =>
              match p1.layouts.find? (fun l => l.id == lid) with
              | none => Except.error "dangling layout reference"
              | some l =>
                  match l.implement_insertion_blueprint blueprint.original_node
                      blueprint.replacements with
                  | none => Except.error "stale blueprint"
                  | some l2 =>
                      Except.ok
                        ({ p1 with layouts :=
                            updateFirstLayout p1.layouts lid l2 },
                         false)

/-- The `released_parts.iter().for_each(|p| self.release_part(p, 1))` of
`Problem::remove_node` (line 78). -/
def Problem.release_parts : Problem → List Nat → Except String Problem
  | p, [] => Except.ok p
  | p, id :: rest =>
      match p.release_part id 1 with
      | Except.error e => Except.error e
      | Except.ok p1 => Problem.release_parts p1 rest

/-- `Problem::remove_node` (lines 71-82): the layout's `remove_node`
mutates the tree and yields the released part ids; each released part is
released (`release_part`), and if the layout is then empty
`release_layout` is called — whose `todo!()` panics. -/
def Problem.remove_node (p : Problem) (lid : Nat) (path : NodePath) :
    Except String Problem :=
  match p.layouts.find? (fun l => l.id == lid) with
  | none => Except.error "layout does not belong to problem"
  | some l =>
      match l.remove_node path with
      | none => Except.error "node does not belong to layout"
      | some lp =>
          match Problem.release_parts
              { p with layouts := updateFirstLayout p.layouts lid lp.1 }
              lp.2 with
          | Except.error e => Except.error e
          | Except.ok p2 =>
              if lp.1.is_empty then
                match p2.release_layout lp.1 with
                | Except.error e => Except.error e
                | Except.ok p3 => Except.ok p3
              else Except.ok p2

/-- The number of `Item(q)` leaves across the problem's active layouts
(spec §3: `qty_used`). -/
def Problem.qty_used (p : Problem) (q : Nat) : Nat :=
  (p.layouts.map (fun l => Node.itemCount q l.top_node)).sum

/-- The part-quantity invariant (spec §3/§8): for every part type,
`qty_used + parttype_qty_remaining = demand`. -/
def Problem.part_invariant (p : Problem) : Prop :=
  p.parttype_qtys.length = p.instance_.parts.length ∧
  ∀ q, q < p.instance_.parts.length →
    p.qty_used q + p.parttype_qtys.getD q 0
      = (p.instance_.get_parttype_qty q).getD 0


/- ====================================================================
   Counting lemmas for the layout tree
   ==================================================================== -/

theorem itemCountList_append (q : Nat) :
    ∀ (a b : List Node),
      Node.itemCountList q (a ++ b)
        = Node.itemCountList q a + Node.itemCountList q b
  | [], b => by simp [Node.itemCountList]
  | c :: cs, b => by
      have ih := itemCountList_append q cs b
      simp [Node.itemCountList, ih]
      omega

mutual

theorem itemCount_replaceAt (q : Nat) :
    ∀ (n : Node) (path : NodePath) (reps : List Node) (target n2 : Node),
      Node.nodeAt n path = some target →
      Node.replaceAt n path reps = some n2 →
      Node.itemCount q n2 + Node.itemCount q target
        = Node.itemCount q n + Node.itemCountList q reps
  | _, [], _, _, _, _, hrep => by
      simp [Node.replaceAt] at hrep
  | Node.structureNode cs, i :: rest, reps, target, n2, hat, hrep => by
      have hat2 : Node.nodeAtList cs i rest = some target := hat
      cases hcs2 : Node.replaceAtList cs i rest reps with
      | none => simp [Node.replaceAt, hcs2] at hrep
      | some cs2 =>
          have hn2 : n2 = Node.structureNode cs2 := by
            simp [Node.replaceAt, hcs2] at hrep
            exact hrep.symm
          have ih := itemCountList_replaceAtList q cs i rest reps target cs2
            hat2 hcs2
          rw [hn2]
          simpa [Node.itemCount] using ih
  | Node.itemNode pt, _ :: _, reps, target, n2, hat, hrep => by
      simp [Node.replaceAt] at hrep
  | Node.leftoverNode, _ :: _, reps, target, n2, hat, hrep => by
      simp [Node.replaceAt] at hrep

theorem itemCountList_replaceAtList (q : Nat) :
    ∀ (cs : List Node) (i : Nat) (rest : NodePath) (reps : List Node)
      (target : Node) (cs2 : List Node),
      Node.nodeAtList cs i rest = some target →
      Node.replaceAtList cs i rest reps = some cs2 →
      Node.itemCountList q cs2 + Node.itemCount q target
        = Node.itemCountList q cs + Node.itemCountList q reps
  | [], i, rest, reps, target, cs2, hat, hrep => by
      simp [Node.replaceAtList] at hrep
  | c :: cs, 0, [], reps, target, cs2, hat, hrep => by
      have htgt : target = c := by
        simpa [Node.nodeAtList, Node.nodeAt] using hat.symm
      have hcs2 : cs2 = reps ++ cs := by
        simp [Node.replaceAtList] at hrep
        exact hrep.symm
      subst htgt
      subst hcs2
      rw [itemCountList_append]
      simp [Node.itemCountList]
      omega
  | c :: cs, 0, j :: rest, reps, target, cs2, hat, hrep => by
      have hat2 : Node.nodeAt c (j :: rest) = some target := hat
      cases hc2 : Node.replaceAt c (j :: rest) reps with
      | none => simp [Node.replaceAtList, hc2] at hrep
      | some c2 =>
          have hcs2 : cs2 = c2 :: cs := by
            simp [Node.replaceAtList, hc2] at hrep
            exact hrep.symm
          have ih := itemCount_replaceAt q c (j :: rest) reps target c2 hat2 hc2
          subst hcs2
          simp [Node.itemCountList]
          omega
  | c :: cs, i + 1, rest, reps, target, cs2, hat, hrep => by
      have hat2 : Node.nodeAtList cs i rest = some target := hat
      cases hcs2 : Node.replaceAtList cs i rest reps with
      | none => simp [Node.replaceAtList, hcs2] at hrep
      | some csr =>
          have hshape : cs2 = c :: csr := by
            simp [Node.replaceAtList, hcs2] at hrep
            exact hrep.symm
          have ih := itemCountList_replaceAtList q cs i rest reps target csr
            hat2 hcs2
          subst hshape
          simp [Node.itemCountList]
          omega

end

theorem itemCountList_mergeLeftovers (q : Nat) :
    ∀ (l : List Node),
      Node.itemCountList q (Node.mergeLeftovers l) = Node.itemCountList q l
  | [] => rfl
  | Node.leftoverNode :: rest => by
      have ih := itemCountList_mergeLeftovers q rest
      cases hm : Node.mergeLeftovers rest with
      | nil =>
          rw [hm] at ih
          simp [Node.itemCountList] at ih
          simp [Node.mergeLeftovers, hm, Node.itemCountList, Node.itemCount]
          omega
      | cons head rest2 =>
          rw [hm] at ih
          cases head with
          | leftoverNode =>
              simp [Node.mergeLeftovers, hm, Node.itemCountList,
                Node.itemCount] at ih ⊢
              omega
          | itemNode pt =>
              simp [Node.mergeLeftovers, hm, Node.itemCountList,
                Node.itemCount] at ih ⊢
              omega
          | structureNode cs =>
              simp [Node.mergeLeftovers, hm, Node.itemCountList,
                Node.itemCount] at ih ⊢
              omega
  | Node.itemNode pt :: rest => by
      have ih := itemCountList_mergeLeftovers q rest
      simp [Node.mergeLeftovers, Node.itemCountList, ih]
  | Node.structureNode cs :: rest => by
      have ih := itemCountList_mergeLeftovers q rest
      simp [Node.mergeLeftovers, Node.itemCountList, ih]

theorem itemCountList_of_all_leftover (q : Nat) :
    ∀ (l : List Node), l.all Node.isLeftover = true →
      Node.itemCountList q l = 0
  | [], _ => rfl
  | c :: cs, h => by
      have hsplit : Node.isLeftover c = true ∧ cs.all Node.isLeftover = true := by
        rw [← Bool.and_eq_true]
        simpa [List.all_cons] using h
      have hc : Node.itemCount q c = 0 := by
        cases c with
        | leftoverNode => rfl
        | itemNode pt => simp [Node.isLeftover] at hsplit
        | structureNode cs => simp [Node.isLeftover] at hsplit
      have ih := itemCountList_of_all_leftover q cs hsplit.2
      simp [Node.itemCountList, hc, ih]

mutual

theorem itemCount_simplify (q : Nat) :
    ∀ (n : Node), Node.itemCount q (Node.simplify n) = Node.itemCount q n
  | Node.structureNode cs => by
      have ih := itemCountList_simplifyList q cs
      by_cases hall :
          (Node.mergeLeftovers (Node.simplifyList cs)).all Node.isLeftover = true
      · have hz := itemCountList_of_all_leftover q _ hall
        rw [itemCountList_mergeLeftovers, ih] at hz
        simp [Node.simplify, hall, Node.itemCount]
        omega
      · simp [Node.simplify, hall, Node.itemCount,
          itemCountList_mergeLeftovers, ih]
  | Node.itemNode pt => rfl
  | Node.leftoverNode => rfl

theorem itemCountList_simplifyList (q : Nat) :
    ∀ (l : List Node),
      Node.itemCountList q (Node.simplifyList l) = Node.itemCountList q l
  | [] => rfl
  | c :: cs => by
      have ih1 := itemCount_simplify q c
      have ih2 := itemCountList_simplifyList q cs
      simp [Node.simplifyList, Node.itemCountList, ih1, ih2]

end

theorem itemCount_simplifyTop (q : Nat) (n : Node) :
    Node.itemCount q (Node.simplifyTop n) = Node.itemCount q n := by
  cases n with
  | structureNode cs =>
      simp [Node.simplifyTop, Node.itemCount, itemCountList_mergeLeftovers,
        itemCountList_simplifyList]
  | itemNode pt => rfl
  | leftoverNode => rfl

theorem qty_used_updateFirstLayout (q lid : Nat) :
    ∀ (ls : List Layout) (l l2 : Layout),
      ls.find? (fun x => x.id == lid) = some l →
      ((updateFirstLayout ls lid l2).map
          (fun x => Node.itemCount q x.top_node)).sum
          + Node.itemCount q l.top_node
        = (ls.map (fun x => Node.itemCount q x.top_node)).sum
          + Node.itemCount q l2.top_node := by
  intro ls
  induction ls with
  | nil => intro l l2 h; simp [List.find?] at h
  | cons x xs ih =>
      intro l l2 h
      by_cases hx : (x.id == lid) = true
      · have hl : l = x := by
          simp [List.find?, hx] at h
          exact h.symm
        subst hl
        simp [updateFirstLayout, hx]
        omega
      · simp [List.find?, hx] at h
        have := ih l l2 h
        simp [updateFirstLayout, hx]
        omega

theorem getD_set_self (v : Nat) :
    ∀ (l : List Nat) (i : Nat), i < l.length → (l.set i v).getD i 0 = v
  | [], i, h => by simp at h
  | x :: xs, 0, _ => rfl
  | x :: xs, i + 1, h => by
      have := getD_set_self v xs i (by simpa [Nat.succ_lt_succ_iff] using h)
      simpa [List.set, List.getD] using this

theorem getD_set_ne (v : Nat) :
    ∀ (l : List Nat) (i q : Nat), q ≠ i → (l.set i v).getD q 0 = l.getD q 0
  | [], _, _, _ => by simp
  | x :: xs, 0, 0, h => absurd rfl h
  | x :: xs, 0, q + 1, _ => by simp [List.set, List.getD]
  | x :: xs, i + 1, 0, _ => by simp [List.set, List.getD]
  | x :: xs, i + 1, q + 1, h => by
      have := getD_set_ne v xs i q (by omega)
      simpa [List.set, List.getD] using this

theorem getD_of_getElem? (l : List Nat) (i v : Nat) (h : l[i]? = some v) :
    l.getD i 0 = v := by
  have : l.getD i 0 = (l[i]?).getD 0 := List.getD_eq_getElem?_getD l i 0
  rw [this, h]
  rfl

/- ====================================================================
   Shapes of successful Problem operations
   ==================================================================== -/

theorem register_part_ok (p : Problem) (parttype : PartType) (p1 : Problem)
    (h : p.register_part parttype 1 = Except.ok p1) :
    ∃ q0, p.parttype_qtys[parttype.id]? = some q0 ∧ 1 ≤ q0 ∧
      p1 = { p with parttype_qtys :=
        p.parttype_qtys.set parttype.id (q0 - 1) } := by
  unfold Problem.register_part at h
  split at h
  · cases h
  · rename_i q0 hq
    split at h
    · rename_i h1
      cases h
      exact ⟨q0, hq, h1, rfl⟩
    · cases h

theorem release_part_ok (p : Problem) (id : Nat) (p1 : Problem)
    (h : p.release_part id 1 = Except.ok p1) :
    ∃ q0 demand, p.parttype_qtys[id]? = some q0 ∧
      p.instance_.get_parttype_qty id = some demand ∧ q0 + 1 ≤ demand ∧
      p1 = { p with parttype_qtys := p.parttype_qtys.set id (q0 + 1) } := by
  unfold Problem.release_part at h
  split at h
  · rename_i q0 demand hq hd
    split at h
    · rename_i h1
      cases h
      exact ⟨q0, demand, hq, hd, h1, rfl⟩
    · cases h
  · cases h

theorem layout_implement_ok (l : Layout) (path : NodePath)
    (reps : List Node) (l2 : Layout)
    (h : l.implement_insertion_blueprint path reps = some l2) :
    Node.nodeAt l.top_node path = some Node.leftoverNode ∧
    ∃ t, Node.replaceAt l.top_node path reps = some t ∧
      l2 = { l with top_node := t } := by
  unfold Layout.implement_insertion_blueprint at h
  split at h
  · rename_i hat
    split at h
    · rename_i t hrep
      cases h
      exact ⟨hat, t, hrep, rfl⟩
    · cases h
  · cases h

theorem layout_remove_ok (l : Layout) (path : NodePath)
    (l1 : Layout) (released : List Nat)
    (h : l.remove_node path = some (l1, released)) :
    ∃ pt t, Node.nodeAt l.top_node path = some (Node.itemNode pt) ∧
      Node.replaceAt l.top_node path [Node.leftoverNode] = some t ∧
      l1 = { l with top_node := t.simplifyTop } ∧ released = [pt] := by
  unfold Layout.remove_node at h
  split at h
  · rename_i pt hat
    split at h
    · rename_i t hrep
      cases h
      exact ⟨pt, t, hat, hrep, rfl, rfl⟩
    · cases h
  · cases h

theorem implement_insertion_blueprint_ok (p : Problem)
    (bp : InsertionBlueprint) (p2 : Problem) (b : Bool)
    (h : p.implement_insertion_blueprint bp = Except.ok (p2, b)) :
    b = false ∧
    ∃ lid p1 l l2, bp.layout = some lid ∧
      p.register_part bp.parttype 1 = Except.ok p1 ∧
      p1.layouts.find? (fun x => x.id == lid) = some l ∧
      l.implement_insertion_blueprint bp.original_node bp.replacements
        = some l2 ∧
      p2 = { p1 with layouts := updateFirstLayout p1.layouts lid l2 } := by
  unfold Problem.implement_insertion_blueprint at h
  split at h
  · cases h
  · rename_i lid hlid
    split at h
    · cases h
    · split at h
      · -- empty-template branch: register_layout's todo!() panics
        split at h
        · cases h
        · simp only [Problem.register_layout] at h
          split at h
          · cases h
          · cases h
      · split at h
        · cases h
        · rename_i p1 hreg
          split at h
          · cases h
          · rename_i l hfind
            split at h
            · cases h
            · rename_i l2 hins
              cases h
              exact ⟨rfl, lid, p1, l, l2, hlid, hreg, hfind, hins, rfl⟩

theorem remove_node_ok (p : Problem) (lid : Nat) (path : NodePath)
    (p2 : Problem) (h : p.remove_node lid path = Except.ok p2) :
    ∃ l l1 pt,
      p.layouts.find? (fun x => x.id == lid) = some l ∧
      l.remove_node path = some (l1, [pt]) ∧
      Problem.release_part
        { p with layouts := updateFirstLayout p.layouts lid l1 } pt 1
        = Except.ok p2 ∧
      l1.is_empty = false := by
  unfold Problem.remove_node at h
  split at h
  · cases h
  · rename_i l hfind
    split at h
    · cases h
    · rename_i lp hrem
      obtain ⟨pt, t, hat, hrep, hl1, hrel⟩ :=
        layout_remove_ok l path lp.1 lp.2 (by rw [hrem])
      rw [hrel] at h
      cases hrp : Problem.release_part
          { p with layouts := updateFirstLayout p.layouts lid lp.1 } pt 1 with
      | error e =>
          rw [show Problem.release_parts
              { p with layouts := updateFirstLayout p.layouts lid lp.1 } [pt]
              = Except.error e from by
            unfold Problem.release_parts
            rw [hrp]] at h
          cases h
      | ok pr =>
          rw [show Problem.release_parts
              { p with layouts := updateFirstLayout p.layouts lid lp.1 } [pt]
              = Except.ok pr from by
            unfold Problem.release_parts
            rw [hrp]
            rfl] at h
          replace h : (if lp.1.is_empty = true then
              (Except.error "not yet implemented: release_layout" :
                Except String Problem)
            else Except.ok pr) = Except.ok p2 := h
          split at h
          · cases h
          · rename_i hemp
            cases h
            exact ⟨l, lp.1, pt, hfind, by rw [hrem, ← hrel], hrp,
              by simpa using hemp⟩

/- ====================================================================
   Preservation of the part-quantity invariant
   ==================================================================== -/

theorem commit_preserves_part_invariant (p : Problem)
    (bp : InsertionBlueprint) (p2 : Problem) (b : Bool)
    (hinv : p.part_invariant)
    (hreps : ∀ q, Node.itemCountList q bp.replacements
      = if bp.parttype.id = q then 1 else 0)
    (h : p.implement_insertion_blueprint bp = Except.ok (p2, b)) :
    p2.part_invariant := by
  obtain ⟨hb, lid, p1, l, l2, hlid, hreg, hfind, hins, hp2⟩ :=
    implement_insertion_blueprint_ok p bp p2 b h
  obtain ⟨q0, hq0, hge1, hp1⟩ := register_part_ok p bp.parttype p1 hreg
  obtain ⟨hat, t, hrep, hl2⟩ :=
    layout_implement_ok l bp.original_node bp.replacements l2 hins
  obtain ⟨hlen, hbal⟩ := hinv
  have hidlt : bp.parttype.id < p.parttype_qtys.length := by
    rcases Nat.lt_or_ge bp.parttype.id p.parttype_qtys.length with hlt | hge
    · exact hlt
    · rw [List.getElem?_eq_none hge] at hq0
      cases hq0
  constructor
  · rw [hp2, hp1]
    simpa [List.length_set] using hlen
  · intro q hq
    have hq2 : q < p.instance_.parts.length := by
      rw [hp2, hp1] at hq
      exact hq
    have hused : p2.qty_used q = p.qty_used q
        + Node.itemCountList q bp.replacements := by
      have h6 := qty_used_updateFirstLayout q lid p1.layouts l l2 hfind
      have hcnt := itemCount_replaceAt q l.top_node bp.original_node
        bp.replacements Node.leftoverNode t hat hrep
      have hl2c : Node.itemCount q l2.top_node = Node.itemCount q t := by
        rw [hl2]
      have hplay : p1.layouts = p.layouts := by rw [hp1]
      have hq2used : p2.qty_used q = ((updateFirstLayout p1.layouts lid l2).map
          (fun x => Node.itemCount q x.top_node)).sum := by
        rw [hp2]
        rfl
      have hpused : p.qty_used q = (p1.layouts.map
          (fun x => Node.itemCount q x.top_node)).sum := by
        rw [hplay]
        rfl
      rw [hq2used, hpused]
      simp [Node.itemCount] at hcnt
      omega
    have hqty2 : p2.parttype_qtys
        = p.parttype_qtys.set bp.parttype.id (q0 - 1) := by
      rw [hp2, hp1]
    have hinst2 : p2.instance_ = p.instance_ := by
      rw [hp2, hp1]
    rw [hinst2, hused, hqty2]
    by_cases hqe : q = bp.parttype.id
    · have hgd : (p.parttype_qtys.set bp.parttype.id (q0 - 1)).getD q 0
          = q0 - 1 := by
        rw [hqe]
        exact getD_set_self (q0 - 1) p.parttype_qtys bp.parttype.id hidlt
      have hold : p.parttype_qtys.getD q 0 = q0 := by
        rw [hqe]
        exact getD_of_getElem? p.parttype_qtys bp.parttype.id q0 hq0
      have hrq : Node.itemCountList q bp.replacements = 1 := by
        rw [hreps q, if_pos hqe.symm]
      have hbq := hbal q hq2
      rw [hgd, hrq]
      omega
    · have hgd : (p.parttype_qtys.set bp.parttype.id (q0 - 1)).getD q 0
          = p.parttype_qtys.getD q 0 :=
        getD_set_ne (q0 - 1) p.parttype_qtys bp.parttype.id q hqe
      have hrq : Node.itemCountList q bp.replacements = 0 := by
        rw [hreps q, if_neg (fun hh => hqe hh.symm)]
      have hbq := hbal q hq2
      rw [hgd, hrq]
      omega

theorem remove_preserves_part_invariant (p : Problem) (lid : Nat)
    (path : NodePath) (p2 : Problem)
    (hinv : p.part_invariant)
    (h : p.remove_node lid path = Except.ok p2) :
    p2.part_invariant := by
  obtain ⟨l, l1, pt, hfind, hrem, hrp, hemp⟩ := remove_node_ok p lid path p2 h
  obtain ⟨pt2, t, hat, hrep, hl1, hrel⟩ := layout_remove_ok l path l1 [pt] hrem
  have hpt : pt2 = pt := by
    injection hrel with h1 _
    exact h1.symm
  subst hpt
  obtain ⟨q0, demand, hq0, hd, hle, hp2shape⟩ :=
    release_part_ok { p with layouts := updateFirstLayout p.layouts lid l1 }
      pt2 p2 hrp
  obtain ⟨hlen, hbal⟩ := hinv
  have hidlt : pt2 < p.parttype_qtys.length := by
    rcases Nat.lt_or_ge pt2 p.parttype_qtys.length with hlt | hge
    · exact hlt
    · rw [show ({ p with layouts :=
          updateFirstLayout p.layouts lid l1 } : Problem).parttype_qtys
          = p.parttype_qtys from rfl] at hq0
      rw [List.getElem?_eq_none hge] at hq0
      cases hq0
  have hq0p : p.parttype_qtys[pt2]? = some q0 := hq0
  constructor
  · rw [hp2shape]
    simpa [List.length_set] using hlen
  · intro q hq
    have hq2 : q < p.instance_.parts.length := by
      rw [hp2shape] at hq
      exact hq
    have hcnt := itemCount_replaceAt q l.top_node path [Node.leftoverNode]
      (Node.itemNode pt2) t hat hrep
    have hl1c : Node.itemCount q l1.top_node = Node.itemCount q t := by
      rw [hl1]
      exact itemCount_simplifyTop q t
    have h6 := qty_used_updateFirstLayout q lid p.layouts l l1 hfind
    have hq2used : p2.qty_used q = ((updateFirstLayout p.layouts lid l1).map
        (fun x => Node.itemCount q x.top_node)).sum := by
      rw [hp2shape]
      rfl
    have hpused : p.qty_used q
        = (p.layouts.map (fun x => Node.itemCount q x.top_node)).sum := rfl
    have hqty2 : p2.parttype_qtys = p.parttype_qtys.set pt2 (q0 + 1) := by
      rw [hp2shape]
    have hinst2 : p2.instance_ = p.instance_ := by
      rw [hp2shape]
    rw [hinst2, hqty2]
    simp [Node.itemCount, Node.itemCountList] at hcnt
    by_cases hqe : q = pt2
    · have hgd : (p.parttype_qtys.set pt2 (q0 + 1)).getD q 0 = q0 + 1 := by
        rw [hqe]
        exact getD_set_self (q0 + 1) p.parttype_qtys pt2 hidlt
      have hold : p.parttype_qtys.getD q 0 = q0 := by
        rw [hqe]
        exact getD_of_getElem? p.parttype_qtys pt2 q0 hq0p
      have hbq := hbal q hq2
      rw [hgd]
      rw [if_pos hqe.symm] at hcnt
      rw [hpused] at hbq
      rw [hq2used]
      omega
    · have hgd : (p.parttype_qtys.set pt2 (q0 + 1)).getD q 0
          = p.parttype_qtys.getD q 0 :=
        getD_set_ne (q0 + 1) p.parttype_qtys pt2 q hqe
      have hbq := hbal q hq2
      rw [hgd]
      rw [if_neg (fun hh => hqe hh.symm)] at hcnt
      rw [hpused] at hbq
      rw [hq2used]
      omega

/- ====================================================================
   Theorems: C1, C2, C3, C4
   ==================================================================== -/

/-- C1: after every `implement_insertion_blueprint` commit and after every
`remove_node` that completes — the `todo!()` paths (`register_layout`,
`release_layout`) panic and leave no post-state — the part-quantity
invariant is preserved: for every part type `p`, the number of `Item(p)`
leaves across all active layouts plus `parttype_qtys[p]` equals the
instance's demand for `p`.  The blueprint hypothesis is §3's "placing one
unit of `parttype`": the replacement subtrees contain exactly one `Item`
of the blueprint's part type. -/
theorem part_invariant_after_commit_and_remove :
    (∀ (p : Problem) (bp : InsertionBlueprint) (p2 : Problem) (b : Bool),
      p.part_invariant →
      (∀ q, Node.itemCountList q bp.replacements
        = if bp.parttype.id = q then 1 else 0) →
      p.implement_insertion_blueprint bp = Except.ok (p2, b) →
      p2.part_invariant) ∧
    (∀ (p : Problem) (lid : Nat) (path : NodePath) (p2 : Problem),
      p.part_invariant →
      p.remove_node lid path = Except.ok p2 →
      p2.part_invariant) :=
  ⟨fun p bp p2 b hinv hreps h =>
      commit_preserves_part_invariant p bp p2 b hinv hreps h,
   fun p lid path p2 hinv h =>
      remove_preserves_part_invariant p lid path p2 hinv h⟩

/-- A concrete instance for evaluation: one part type (demand 2), one
sheet type (stock 5). -/
def demoInstance : Instance :=
  { parts := [(PartType.new 0 60 100 none, 2)],
    sheets := [(SheetType.new_with_id 0 100 100 10, 5)] }

/-- A pristine empty-template layout (id 1). -/
def demoEmptyLayout : Layout :=
  { id := 1, sheettype_id := 0,
    top_node := Node.structureNode [Node.leftoverNode] }

/-- An active layout (id 2) with a single Leftover leaf. -/
def demoActiveLayout : Layout :=
  { id := 2, sheettype_id := 0,
    top_node := Node.structureNode [Node.leftoverNode] }

/-- A problem with one active layout and one empty template. -/
def demoProblem : Problem :=
  { instance_ := demoInstance, parttype_qtys := [2], sheettype_qtys := [5],
    layouts := [demoActiveLayout], empty_layouts := [demoEmptyLayout],
    counter_layout_id := 2 }

/-- A blueprint that replaces the active layout's Leftover leaf by one
`Item` of part type 0. -/
def bpActive : InsertionBlueprint :=
  { original_node := [0], replacements := [Node.itemNode 0],
    parttype := PartType.new 0 60 100 none, layout := some 2 }

/-- The same blueprint, but targeting the empty template (id 1). -/
def bpTemplate : InsertionBlueprint :=
  { original_node := [0], replacements := [Node.itemNode 0],
    parttype := PartType.new 0 60 100 none, layout := some 1 }

/-- The active layout after `bpActive` is committed. -/
def demoCommittedLayout : Layout :=
  { id := 2, sheettype_id := 0,
    top_node := Node.structureNode [Node.itemNode 0] }

/-- The state `demoProblem` reaches by committing `bpActive`. -/
def demoProblemAfterCommit : Problem :=
  { instance_ := demoInstance, parttype_qtys := [1], sheettype_qtys := [5],
    layouts := [demoCommittedLayout],
    empty_layouts := [demoEmptyLayout], counter_layout_id := 2 }

/-- A layout (id 3) holding two items of part type 0. -/
def twoItemLayout : Layout :=
  { id := 3, sheettype_id := 0,
    top_node := Node.structureNode [Node.itemNode 0, Node.itemNode 0] }

/-- `twoItemLayout` after its first item is removed. -/
def twoItemLayoutAfterRemove : Layout :=
  { id := 3, sheettype_id := 0,
    top_node := Node.structureNode [Node.leftoverNode, Node.itemNode 0] }

/-- A problem whose only layout is `twoItemLayout`; all demand is
placed. -/
def twoItemProblem : Problem :=
  { instance_ := demoInstance, parttype_qtys := [0], sheettype_qtys := [5],
    layouts := [twoItemLayout],
    empty_layouts := [demoEmptyLayout], counter_layout_id := 3 }

/-- The state `twoItemProblem` reaches by removing its first item. -/
def twoItemProblemAfterRemove : Problem :=
  { instance_ := demoInstance, parttype_qtys := [1], sheettype_qtys := [5],
    layouts := [twoItemLayoutAfterRemove],
    empty_layouts := [demoEmptyLayout], counter_layout_id := 3 }

/-- A layout (id 4) holding a single item. -/
def oneItemLayout : Layout :=
  { id := 4, sheettype_id := 0,
    top_node := Node.structureNode [Node.itemNode 0] }

/-- A problem whose only layout is `oneItemLayout`, so removing that item
empties the layout. -/
def oneItemProblem : Problem :=
  { instance_ := demoInstance, parttype_qtys := [1], sheettype_qtys := [5],
    layouts := [oneItemLayout],
    empty_layouts := [demoEmptyLayout], counter_layout_id := 4 }

/-- Witness for C1: the invariant holds after a concrete commit and after
a concrete remove. -/
theorem part_invariant_after_commit_and_remove_witness :
    Problem.part_invariant demoProblemAfterCommit ∧
    Problem.part_invariant twoItemProblemAfterRemove :=
  ⟨part_invariant_after_commit_and_remove.1 demoProblem bpActive
      demoProblemAfterCommit false
      (by unfold Problem.part_invariant; exact ⟨rfl, by decide⟩)
      (by
        intro q
        simp [bpActive, PartType.new, Node.itemCountList, Node.itemCount])
      rfl,
   part_invariant_after_commit_and_remove.2 twoItemProblem 3 [0]
      twoItemProblemAfterRemove
      (by unfold Problem.part_invariant; exact ⟨rfl, by decide⟩)
      rfl⟩

/-- C2 at the failing input: a commit that does not target an empty
template decrements `parttype_qtys` at the blueprint's part-type id by
exactly 1 and the quantity stays non-negative, but a commit whose
blueprint targets an empty-template layout panics at the `todo!()` in
`register_layout` without decrementing anything. -/
theorem commit_template_panics_without_decrement :
    demoProblem.implement_insertion_blueprint bpTemplate
      = Except.error "not yet implemented: register_layout" ∧
    demoProblem.implement_insertion_blueprint bpActive
      = Except.ok (demoProblemAfterCommit, false) ∧
    demoProblem.parttype_qtys = [2] ∧
    demoProblemAfterCommit.parttype_qtys = [1] :=
  ⟨rfl, rfl, rfl, rfl⟩

/-- C3 at the failing input: a commit against an active layout mutates it
in place (same layout id, no new layout, `sheettype_qtys` untouched) and
returns `false` as its second component; a commit against an
empty-template layout never reaches the point of registering the copy,
decrementing `sheettype_qtys` or returning `true` — `register_layout`'s
`todo!()` panics first. -/
theorem commit_copy_on_insert_panics_before_registration :
    (demoProblem.implement_insertion_blueprint bpActive).map
        (fun r => r.2) = Except.ok false ∧
    demoProblemAfterCommit.layouts.map (fun l => l.id) = [2] ∧
    demoProblemAfterCommit.sheettype_qtys = demoProblem.sheettype_qtys ∧
    demoProblem.implement_insertion_blueprint bpTemplate
      = Except.error "not yet implemented: register_layout" :=
  ⟨rfl, rfl, rfl, rfl⟩

/-- C4 at the failing input: `remove_node` increments `parttype_qtys`
once for each released part, but when the removal empties the layout the
call panics at the `todo!()` in `release_layout` instead of removing the
layout and incrementing `sheettype_qtys`. -/
theorem remove_node_panics_when_layout_empties :
    twoItemProblem.remove_node 3 [0]
      = Except.ok twoItemProblemAfterRemove ∧
    twoItemProblem.parttype_qtys = [0] ∧
    twoItemProblemAfterRemove.parttype_qtys = [1] ∧
    oneItemProblem.remove_node 4 [0]
      = Except.error "not yet implemented: release_layout" :=
  ⟨rfl, rfl, rfl, rfl⟩

end Gdrr
